import Mathlib

/-!
Verification development for jrSortTable 1.2.1 (src/jrSortTable_1.2.1.js).

The file shallowly embeds the column sort engine of the library:
the comparator registry `jrSortTables.sort_functions`, the type classifier
`guessDataType`, the override lookup `getSortFn`, the sort engine
`jrSortTables.sort`, and the table registration performed by
`jrSortTables.setup` / `prepareTables`.

JavaScript numbers are modelled exactly by the rationals, refined by a
double-saturation model (`JSNum`, with the infinities and NaN) for the
subtraction-based comparators, where the overflow of the double format is
observable.  String values are Lean strings (characters are code points,
matching UTF-16 for the BMP inputs that occur here).  `localeCompare` is
modelled as code-point lexicographic comparison: a deterministic stand-in
for locale collation, returning -1/0/1, which is all any statement below
depends on.
-/

namespace JrSortTable

/-- JavaScript whitespace characters (the StrWhiteSpace grammar:
space-like characters plus line terminators; exotic Unicode space
characters that never occur in the inputs of interest are omitted). -/
def isJSWhitespace (c : Char) : Bool :=
  c = ' ' || c = '\t' || c = '\n' || c = '\r' || c = '\x0b' || c = '\x0c' ||
  c = '\u00A0' || c = '\u2028' || c = '\u2029' || c = '\uFEFF'

/-- JavaScript line terminators: LF, CR, LS, PS.  The regexp metacharacter
`.` (with no flag) matches any character except these. -/
def isLineTerminator (c : Char) : Bool :=
  c = '\n' || c = '\r' || c = '\u2028' || c = '\u2029'

/-- Value of a list of decimal digit characters, most significant first. -/
def digitListVal (ds : List Char) : Nat :=
  ds.foldl (fun acc c => acc * 10 + (c.toNat - 48)) 0

/-- Parse a decimal significand `Digits [. Digits] | . Digits` from the
front of a character list; return the pair (n, k) describing its value
n / 10 ^ k, and the remaining characters. -/
def parseSignificand (cs : List Char) : Option ((Nat × Nat) × List Char) :=
  let ip := cs.takeWhile Char.isDigit
  let r1 := cs.dropWhile Char.isDigit
  match r1 with
  | '.' :: r2 =>
      let fp := r2.takeWhile Char.isDigit
      let r3 := r2.dropWhile Char.isDigit
      if ip.isEmpty && fp.isEmpty then none
      else some ((digitListVal ip * 10 ^ fp.length + digitListVal fp, fp.length), r3)
  | _ => if ip.isEmpty then none else some ((digitListVal ip, 0), r1)

/-- Parse an optional exponent part `e|E [+|-] Digits`.  When the digits are
missing the exponent marker is not consumed (as in JavaScript, where
`parseFloat "1e"` is `1`).  Returns (exponent is negative, magnitude, rest). -/
def parseExponent (cs : List Char) : Bool × Nat × List Char :=
  match cs with
  | 'e' :: rest =>
      (match rest with
       | '+' :: r2 =>
           let ds := r2.takeWhile Char.isDigit
           if ds.isEmpty then (false, 0, cs) else (false, digitListVal ds, r2.dropWhile Char.isDigit)
       | '-' :: r2 =>
           let ds := r2.takeWhile Char.isDigit
           if ds.isEmpty then (false, 0, cs) else (true, digitListVal ds, r2.dropWhile Char.isDigit)
       | r2 =>
           let ds := r2.takeWhile Char.isDigit
           if ds.isEmpty then (false, 0, cs) else (false, digitListVal ds, r2.dropWhile Char.isDigit))
  | 'E' :: rest =>
      (match rest with
       | '+' :: r2 =>
           let ds := r2.takeWhile Char.isDigit
           if ds.isEmpty then (false, 0, cs) else (false, digitListVal ds, r2.dropWhile Char.isDigit)
       | '-' :: r2 =>
           let ds := r2.takeWhile Char.isDigit
           if ds.isEmpty then (false, 0, cs) else (true, digitListVal ds, r2.dropWhile Char.isDigit)
       | r2 =>
           let ds := r2.takeWhile Char.isDigit
           if ds.isEmpty then (false, 0, cs) else (false, digitListVal ds, r2.dropWhile Char.isDigit))
  | _ => (false, 0, cs)

/-- Parse a signed decimal literal (sign, significand, optional exponent)
from the front of a character list.  Exact-rational model of the common
StrDecimalLiteral grammar (the Infinity literal, which cannot be produced
by the stripped inputs fed to these parsers, is not modelled). -/
def parseDecimal (cs : List Char) : Option (ℚ × List Char) :=
  let sc : Bool × List Char :=
    match cs with
    | '-' :: r => (true, r)
    | '+' :: r => (false, r)
    | _ => (false, cs)
  match parseSignificand sc.2 with
  | none => none
  | some (nk, r) =>
      let er := parseExponent r
      let num : Nat := if er.1 then nk.1 else nk.1 * 10 ^ er.2.1
      let den : Nat := if er.1 then 10 ^ (nk.2 + er.2.1) else 10 ^ nk.2
      let q : ℚ := if sc.1 then mkRat (-(num : Int)) den else mkRat (num : Int) den
      some (q, er.2.2)

/-- Model of JavaScript `parseFloat`: skip leading whitespace, read the
longest decimal-literal prefix, ignore the rest; `none` models NaN. -/
def parseFloatJS (s : String) : Option ℚ :=
  (parseDecimal (s.data.dropWhile isJSWhitespace)).map Prod.fst

/-- Model of JavaScript string-to-number coercion (`Number(s)`, also the
test performed by `isNaN(s)`): trim whitespace, empty string is 0, and the
whole remaining string must be one decimal literal; `none` models NaN. -/
def jsNumberOfString (s : String) : Option ℚ :=
  let cs := ((s.data.dropWhile isJSWhitespace).reverse.dropWhile isJSWhitespace).reverse
  if cs.isEmpty then some 0
  else
    match parseDecimal cs with
    | some (q, []) => some q
    | _ => none

/-- Difference of two rationals, computed directly from numerators and
denominators.  Extensionally equal to subtraction on `ℚ` (theorem
`ratSub_eq` below); spelled this way so that concrete instances of the
comparators evaluate by kernel reduction. -/
def ratSub (a b : ℚ) : ℚ :=
  mkRat (a.num * b.den - b.num * a.den) (a.den * b.den)

/-- Runtime value held by the closure variables of `sort_functions`:
either a JavaScript number (exact rational) or a string. -/
inductive JSVal where
  | num (q : ℚ)
  | str (s : String)
deriving DecidableEq

/-- JavaScript ToNumber on a `JSVal`, as performed by the subtraction
operator; an unparseable string coerces to 0 here only as a default
(the code only subtracts strings it has already checked with `isNaN`). -/
def jsToNumber : JSVal → ℚ
  | .num q => q
  | .str t => (jsNumberOfString t).getD 0

/-- Closure variables `let aa, bb, tmpa, tmpb, date1, date2` shared by all
five comparators of `jrSortTables.sort_functions`. -/
structure SortClosure where
  aa : JSVal
  bb : JSVal
  tmpa : JSVal
  tmpb : JSVal
  date1 : String
  date2 : String

/-- Arbitrary starting contents for the closure variables (they are
undefined before the first comparator call; no comparator reads a closure
variable before writing it, which `comparators_state_independent` proves). -/
def initClosure : SortClosure :=
  { aa := .num 0, bb := .num 0, tmpa := .num 0, tmpb := .num 0, date1 := "", date2 := "" }

/-- Test `aa.search(/^0+.*$/) === 0`: the regexp matches the whole string
from position 0 exactly when the string starts with a zero digit and
contains no line terminator (`.` does not match line terminators, `$`
without the m flag only matches at the very end). -/
def zeroPatternMatchesL : List Char → Bool
  | c :: cs => c = '0' && (c :: cs).all (fun ch => !isLineTerminator ch)
  | [] => false

/-- String-level wrapper for the leading-zero pattern test. -/
def zeroPatternMatches (s : String) : Bool :=
  zeroPatternMatchesL s.data

/-- Value stored into `tmpa` (resp. `tmpb`) by `alphaNumeric` for one key:
a leading-zero string stays a string; an empty string becomes the number 0;
otherwise `parseFloat` is tried and the raw string is kept on NaN. -/
def tmpOf (s : String) : JSVal :=
  if zeroPatternMatches s then .str s
  else if s.length = 0 then .num 0
  else
    match parseFloatJS s with
    | some q => .num q
    | none => .str s

/-- Model of `String.prototype.localeCompare`, as code-point lexicographic
comparison returning -1/0/1 (a deterministic stand-in for locale collation;
no statement below depends on the order between two distinct plain strings). -/
def localeCmp (x y : String) : ℚ :=
  if x < y then -1 else if x = y then 0 else 1

/-- Final comparison of `alphaNumeric` on the classified values: two
strings via `localeCompare`, two numbers by difference, and for mixed types
`typeof tmpa < typeof tmpb ? -1 : 1` with the string `'number'` being less
than the string `'string'`. -/
def alphaCompare : JSVal → JSVal → ℚ
  | .str x, .str y => localeCmp x y
  | .num x, .num y => ratSub x y
  | .num _, .str _ => -1
  | .str _, .num _ => 1

/-- Comparator `alphaNumeric` with its writes to the closure variables.
The arguments are the `[0]` components (the extracted cell texts) of the
two `[key, row]` pairs the engine passes in; the row components are never
read by any registry comparator. -/
def alphaNumericS (s : SortClosure) (a b : String) : ℚ × SortClosure :=
  let aa := a
  let bb := b
  let tmpa := tmpOf aa
  let tmpb := tmpOf bb
  (alphaCompare tmpa tmpb,
   { s with aa := .str aa, bb := .str bb, tmpa := tmpa, tmpb := tmpb })

/-- JavaScript `String.prototype.substr start len` (non-negative start,
clamped at the end of the string). -/
def strSubstr (s : String) (start len : Nat) : String :=
  ⟨(s.data.drop start).take len⟩

/-- Comparison of the rebuilt `yyyymmdd` strings in the date comparators:
strict equality, then code-unit `<`. -/
def strCmpJS (x y : String) : ℚ :=
  if x = y then 0 else if x < y then -1 else 1

/-- Comparator `sortDate` (dd/mm/yyyy): rebuild `yyyymmdd` by fixed
offsets `substr(6,4) + substr(3,2) + substr(0,2)` and compare. -/
def sortDateS (s : SortClosure) (a b : String) : ℚ × SortClosure :=
  let d1 := strSubstr a 6 4 ++ strSubstr a 3 2 ++ strSubstr a 0 2
  let d2 := strSubstr b 6 4 ++ strSubstr b 3 2 ++ strSubstr b 0 2
  (strCmpJS d1 d2, { s with aa := .str a, bb := .str b, date1 := d1, date2 := d2 })

/-- Comparator `sortDate_American` (mm/dd/yyyy): rebuild `yyyymmdd` by
`substr(6,4) + substr(0,2) + substr(3,2)` and compare. -/
def sortDate_AmericanS (s : SortClosure) (a b : String) : ℚ × SortClosure :=
  let d1 := strSubstr a 6 4 ++ strSubstr a 0 2 ++ strSubstr a 3 2
  let d2 := strSubstr b 6 4 ++ strSubstr b 0 2 ++ strSubstr b 3 2
  (strCmpJS d1 d2, { s with aa := .str a, bb := .str b, date1 := d1, date2 := d2 })

/-- Stripping step of `sortNumberJS`: `replace(/[^\d.-]+/g, '')` keeps only
digits, `.` and `-`; the following `replace(/,/g, '')` is a no-op because
commas were already removed, and is kept for fidelity. -/
def stripNumJS (s : String) : String :=
  ⟨((s.data.filter fun c => c.isDigit || c = '.' || c = '-').filter fun c => c ≠ ',')⟩

/-- Comparator `sortNumberJS` (period decimal separator): strip, replace a
NaN operand by the number 0, subtract with string-to-number coercion. -/
def sortNumberJSS (s : SortClosure) (a b : String) : ℚ × SortClosure :=
  let aa : JSVal := if (jsNumberOfString (stripNumJS a)).isNone then .num 0 else .str (stripNumJS a)
  let bb : JSVal := if (jsNumberOfString (stripNumJS b)).isNone then .num 0 else .str (stripNumJS b)
  (ratSub (jsToNumber aa) (jsToNumber bb), { s with aa := aa, bb := bb })

/-- Replacement `replace(/,/, '.')` (no g flag: only the first comma). -/
def replaceFirstComma : List Char → List Char
  | [] => []
  | c :: rest => if c = ',' then '.' :: rest else c :: replaceFirstComma rest

/-- Stripping steps of `sortNumber_nonJS`: keep only digits, `,` and `-`
(`replace(/[^\d,-]+/g, '')`), remove periods (a no-op after the first step,
kept for fidelity), then turn the first comma into a period. -/
def stripNumNonJS (s : String) : String :=
  ⟨replaceFirstComma ((s.data.filter fun c => c.isDigit || c = ',' || c = '-').filter fun c => c ≠ '.')⟩

/-- Comparator `sortNumber_nonJS` (comma decimal separator). -/
def sortNumber_nonJSS (s : SortClosure) (a b : String) : ℚ × SortClosure :=
  let aa : JSVal := if (jsNumberOfString (stripNumNonJS a)).isNone then .num 0 else .str (stripNumNonJS a)
  let bb : JSVal := if (jsNumberOfString (stripNumNonJS b)).isNone then .num 0 else .str (stripNumNonJS b)
  (ratSub (jsToNumber aa) (jsToNumber bb), { s with aa := aa, bb := bb })

/-- Pure view of `alphaNumeric` (the returned value; independent of the
closure state by `comparators_state_independent`). -/
def alphaNumericCmp (a b : String) : ℚ :=
  (alphaNumericS initClosure a b).1

/-- Pure view of `sortDate`. -/
def sortDateCmp (a b : String) : ℚ :=
  (sortDateS initClosure a b).1

/-- Pure view of `sortDate_American`. -/
def sortDateAmericanCmp (a b : String) : ℚ :=
  (sortDate_AmericanS initClosure a b).1

/-- Pure view of `sortNumberJS`. -/
def sortNumberJSCmp (a b : String) : ℚ :=
  (sortNumberJSS initClosure a b).1

/-- Pure view of `sortNumber_nonJS`. -/
def sortNumberNonJSCmp (a b : String) : ℚ :=
  (sortNumber_nonJSS initClosure a b).1

/-- Names of the registry comparators, in the order in which `for (i in
sortFunctions)` enumerates them (property insertion order). -/
inductive SortFnName where
  | alphaNumeric
  | sortDate
  | sortDate_American
  | sortNumberJS
  | sortNumber_nonJS
deriving DecidableEq

/-- Registry enumeration used to build `rxFn = new RegExp(arr.join('|'))`. -/
def registryNames : List (List Char × SortFnName) :=
  [("alphaNumeric".data, .alphaNumeric),
   ("sortDate".data, .sortDate),
   ("sortDate_American".data, .sortDate_American),
   ("sortNumberJS".data, .sortNumberJS),
   ("sortNumber_nonJS".data, .sortNumber_nonJS)]

/-- Literal-prefix test: the pattern (first list) matches at the front of
the text (second list). -/
def leadMatch : List Char → List Char → Bool
  | [], _ => true
  | _ :: _, [] => false
  | p :: ps, c :: cs => p = c && leadMatch ps cs

/-- First alternative of the alternation that matches at the current
position, trying the alternatives in registry order. -/
def altMatchAt (names : List (List Char × SortFnName)) (suffix : List Char) : Option SortFnName :=
  match names with
  | [] => none
  | (p, n) :: rest => if leadMatch p suffix then some n else altMatchAt rest suffix

/-- Model of `rxFn.exec(className)`: scan start positions left to right and
at each position try the alternatives in order; the first hit wins. -/
def execAlt (names : List (List Char × SortFnName)) : List Char → Option SortFnName
  | [] => altMatchAt names []
  | c :: cs =>
      match altMatchAt names (c :: cs) with
      | some n => some n
      | none => execAlt names cs

/-- Model of `getSortFn(className)`: `none` models the falsy `''` returned
when the regexp does not match. -/
def jsGetSortFn (className : String) : Option SortFnName :=
  execAlt registryNames className.data

/-- All splits of a list into two consecutive parts. -/
def splits2 (l : List Char) : List (List Char × List Char) :=
  (List.range (l.length + 1)).map fun i => (l.take i, l.drop i)

/-- All splits of a list into three consecutive parts. -/
def splits3 (l : List Char) : List (List Char × List Char × List Char) :=
  (splits2 l).flatMap fun p => (splits2 p.2).map fun q => (p.1, q.1, q.2)

/-- Match test for `/^-?\D*?[\d,.]+[\s%]*?$/` (the currency, number or
percentile pattern of `guessDataType`): an optional leading minus sign,
then a block of non-digits, a nonempty block of digits, commas and
periods, and a block of whitespace and percent signs, covering the whole
string.  Laziness of the quantifiers does not affect matchability, and the
optional minus is itself a non-digit, so the splits below also cover it. -/
def matchesNumericPattern (s : String) : Bool :=
  (splits3 s.data).any fun t =>
    t.1.all (fun c => !c.isDigit) &&
    !t.2.1.isEmpty && t.2.1.all (fun c => c.isDigit || c = ',' || c = '.') &&
    t.2.2.all (fun c => isJSWhitespace c || c = '%')

/-- Separators accepted by the date pattern. -/
def isDateSep (c : Char) : Bool :=
  c = '/' || c = '.' || c = '-'

/-- Match `/^(\d\d?)[/.-](\d\d?)[/.-]((\d\d)?\d\d)$/` against a character
list and return the numeric values of the first two groups (as read by
`parseInt(testDate[i], 10)`).  Digits and separators cannot overlap, so the
decomposition into the three digit groups is unique. -/
def dateGroupsL (cs : List Char) : Option (Nat × Nat) :=
  let g1 := cs.takeWhile Char.isDigit
  match cs.dropWhile Char.isDigit with
  | s1 :: r2 =>
      if (g1.length = 1 || g1.length = 2) && isDateSep s1 then
        let g2 := r2.takeWhile Char.isDigit
        match r2.dropWhile Char.isDigit with
        | s2 :: y =>
            if (g2.length = 1 || g2.length = 2) && isDateSep s2 &&
               y.all Char.isDigit && (y.length = 2 || y.length = 4) then
              some (digitListVal g1, digitListVal g2)
            else none
        | [] => none
      else none
  | [] => none

/-- String-level wrapper for the date pattern. -/
def dateGroups (s : String) : Option (Nat × Nat) :=
  dateGroupsL s.data

/-- Model of `guessDataType(txtCell)`: nonempty text is tried against the
numeric pattern first, then against the date pattern with the first-group
over-12 disambiguation; `alphaNumeric` is the default. -/
def guessDataType (txt : String) : SortFnName :=
  if txt.length > 0 then
    if matchesNumericPattern txt then .sortNumberJS
    else
      match dateGroups txt with
      | some g =>
          if 12 < g.1 then .sortDate
          else if 12 < g.2 then .sortDate_American
          else .sortDate
      | none => .alphaNumeric
  else .alphaNumeric

/-- Comparator assigned to a header cell by `prepareTables`:
`fn || guessDataType(getElementText(tbody.rows[0].cells[i]))`, where `fn`
is the override lookup on the header className. -/
def assignedSortFn (className firstCellText : String) : SortFnName :=
  (jsGetSortFn className).getD (guessDataType firstCellText)

/-- Sort direction of a column (`sortdir`, the strings `'up'`/`'down'`). -/
inductive Dir where
  | up
  | down
deriving DecidableEq

/-- Direction flip performed on an already sorted column. -/
def Dir.flip : Dir → Dir
  | .up => .down
  | .down => .up

/-- Per-header-cell sort state (`sortdir`, `isSorted`,
`currentSortedTBody`); initialized by `prepareTables` to `'up'`, `false`
and an unset cache (modelled empty).  The assigned comparator, stored on
the cell at setup and immutable afterwards, is passed to the engine as an
argument. -/
structure HeaderCell (Row : Type) where
  sortdir : Dir
  isSorted : Bool
  currentSortedTBody : List (String × Row)

/-- State touched by one sort request on one column: the live row order of
the tbody and that column's header-cell state. -/
structure TableState (Row : Type) where
  rows : List Row
  header : HeaderCell Row

/-- Order relation induced on `[key, row]` pairs by a registry comparator:
the comparator reads only the key components. -/
def pairLe {Row : Type} (cmp : String → String → ℚ) (x y : String × Row) : Prop :=
  cmp x.1 y.1 ≤ 0

instance {Row : Type} (cmp : String → String → ℚ) : DecidableRel (@pairLe Row cmp) :=
  fun x y => inferInstanceAs (Decidable (cmp x.1 y.1 ≤ 0))

/-- Model of one call of `jrSortTables.sort` on a column.  If the column is
already sorted, the direction flips and the cached `currentSortedTBody` is
replayed front-to-back (up) or back-to-front (down) with no comparator
call.  Otherwise the keyed rows are built from the live tbody, sorted with
the column comparator, cached, and emitted; `sort_direction` keeps the
initial `'up'` in that branch.  Appending the fragment makes the emitted
sequence the new tbody row order. -/
def jrSort {Row : Type} (cmp : String → String → ℚ) (getText : Row → String)
    (t : TableState Row) : TableState Row :=
  if t.header.isSorted then
    match t.header.sortdir.flip with
    | .up =>
        { rows := t.header.currentSortedTBody.map Prod.snd,
          header := { t.header with sortdir := .up } }
    | .down =>
        { rows := (t.header.currentSortedTBody.map Prod.snd).reverse,
          header := { t.header with sortdir := .down } }
  else
    let sorted := List.insertionSort (pairLe cmp) (t.rows.map fun r => (getText r, r))
    { rows := sorted.map Prod.snd,
      header := { t.header with isSorted := true, currentSortedTBody := sorted } }

/-- Column state of a never-sorted column, as `prepareTables` leaves it. -/
def initTable {Row : Type} (rows : List Row) : TableState Row :=
  { rows := rows, header := { sortdir := .up, isSorted := false, currentSortedTBody := [] } }

/-- Per-table entry of `jrSortTables.tableProp` (the header-cell array is
carried separately by the engine model; the fields kept here are the ones
that identify the table: its arrow-span id and its tbody). -/
structure TableProp (Tbl : Type) where
  spanArrowId : String
  tbody : Tbl
deriving DecidableEq

/-- String conversion of the array index used in `"jrSortSpan" + tblNumber`
(`none` models the undefined value, which converts to `"undefined"`). -/
def jsIndexToString : Option Nat → String
  | none => "undefined"
  | some n => toString n

/-- Property-key update on the model of the `tableProp` array: JavaScript
array indexing converts the index to a property key, so all writes with the
same index land on the same entry. -/
def setEntry {α : Type} : List (Option Nat × α) → Option Nat → α → List (Option Nat × α)
  | [], k, v => [(k, v)]
  | (k0, v0) :: rest, k, v =>
      if k0 = k then (k, v) :: rest else (k0, v0) :: setEntry rest k v

/-- Lookup on the model of the `tableProp` array, as performed by
`jrSortTables.sort` via `jrSortTables.tableProp[tblNumber]`. -/
def lookupEntry {α : Type} : List (Option Nat × α) → Option Nat → Option α
  | [], _ => none
  | (k0, v0) :: rest, k => if k0 = k then some v0 else lookupEntry rest k

/-- Model of `prepareTables(tableElem, tblNumber)` restricted to its write
into `jrSortTables.tableProp`. -/
def prepareTables {Tbl : Type} (props : List (Option Nat × TableProp Tbl))
    (tbody : Tbl) (tblNumber : Option Nat) : List (Option Nat × TableProp Tbl) :=
  setEntry props tblNumber
    { spanArrowId := "jrSortSpan" ++ jsIndexToString tblNumber, tbody := tbody }

/-- Model of `jrSortTables.setup`: the forEach callback is declared as
`function (tbl)` and calls `prepareTables(tbl)` with a single argument, so
the `tblNumber` parameter receives the undefined value (`none`) for every
table. -/
def setupModel {Tbl : Type} (tables : List Tbl) : List (Option Nat × TableProp Tbl) :=
  tables.foldl (fun props tbl => prepareTables props tbl none) []

/-- Concrete already-sorted column state used to instantiate the toggle
theorems. -/
def toggleFixture : TableState ℕ :=
  { rows := [5, 7],
    header := { sortdir := .up, isSorted := true, currentSortedTBody := [("a", 7), ("b", 5)] } }

/-- Cell texts of the three-row example column of the numeric-comparator
example: row 0 holds the largest value, row 2 the unparseable one. -/
def c5Texts : ℕ → String :=
  fun n => if n = 0 then "$1,234.50" else if n = 1 then "$99.90" else "N/A"

/-- JavaScript number as the double format actually has it: a finite value
(kept exact), one of the two infinities, or NaN.  This refines the exact
model above where the overflow behavior of doubles matters. -/
inductive JSNum where
  | finite (q : ℚ)
  | inf
  | negInf
  | nan
deriving DecidableEq

/-- Overflow threshold of the double format: every mathematical value at
or beyond 2 ^ 1024 converts to the corresponding infinity.  Inside the
finite range the model keeps the exact rational (the rounding of in-range
values is not modelled, and values between the largest double and 2 ^ 1024,
which also overflow, are conservatively kept finite: the model only calls
something an infinity when the program certainly produces one).  The
constant is the decimal literal of 2 ^ 1024, checked by
`overflowBound_eq` below. -/
def overflowBound : ℚ :=
  mkRat 179769313486231590772930519078902473361797697894230657273430081157732675805500963132708477322407536021120113879871393357658789768814416622492847430639474124377767893424865485276302219601246094119453082952085005768838150682342462881473913110540827237163350510684586298239947245938479716304835356329624224137216 1

/-- Conversion of the exact mathematical value of a numeric literal to the
double the program computes with: saturation to the infinities. -/
def doubleClamp (q : ℚ) : JSNum :=
  if overflowBound ≤ q then .inf
  else if q ≤ -overflowBound then .negInf
  else .finite q

/-- IEEE-754 subtraction on the refined model: NaN propagates, subtracting
an infinity from itself gives NaN, an infinity dominates a finite operand,
and two finite operands give the exact difference. -/
def jsSubDouble : JSNum → JSNum → JSNum
  | .nan, _ => .nan
  | _, .nan => .nan
  | .inf, .inf => .nan
  | .negInf, .negInf => .nan
  | .inf, _ => .inf
  | .negInf, _ => .negInf
  | .finite _, .inf => .negInf
  | .finite _, .negInf => .inf
  | .finite a, .finite b => .finite (ratSub a b)

/-- Double-aware `parseFloat`: recognizes the (optionally signed) Infinity
literal of the StrDecimalLiteral grammar, and converts the exact value of a
finite literal with overflow saturation. -/
def parseFloatD (s : String) : Option JSNum :=
  if leadMatch "Infinity".data (s.data.dropWhile isJSWhitespace) ||
     leadMatch "+Infinity".data (s.data.dropWhile isJSWhitespace) then some JSNum.inf
  else if leadMatch "-Infinity".data (s.data.dropWhile isJSWhitespace) then some JSNum.negInf
  else (parseDecimal (s.data.dropWhile isJSWhitespace)).map fun p => doubleClamp p.1

/-- Classified values of `alphaNumeric` under the double-aware model. -/
inductive JSValD where
  | num (x : JSNum)
  | str (t : String)
deriving DecidableEq

/-- Value stored into `tmpa` (resp. `tmpb`) by `alphaNumeric` for one key
under the double-aware model: same classification as `tmpOf`, with the
parsed number saturating (an overflowed value is an infinity, which is not
NaN, so the `isNaN` guard keeps it numeric). -/
def tmpOfD (s : String) : JSValD :=
  if zeroPatternMatches s then .str s
  else if s.length = 0 then .num (.finite 0)
  else
    match parseFloatD s with
    | some x => .num x
    | none => .str s

/-- Final comparison of `alphaNumeric` under the double-aware model. -/
def alphaCompareD : JSValD → JSValD → JSNum
  | .str x, .str y => .finite (localeCmp x y)
  | .num x, .num y => jsSubDouble x y
  | .num _, .str _ => .finite (-1)
  | .str _, .num _ => .finite 1

/-- Comparator `alphaNumeric` under the double-aware model. -/
def alphaNumericD (a b : String) : JSNum :=
  alphaCompareD (tmpOfD a) (tmpOfD b)

/-- Double value of one `sortNumberJS` operand: strip, coerce, saturate;
a NaN coercion is replaced by 0 by the `isNaN` guard. -/
def sortNumberJSNumD (s : String) : JSNum :=
  match jsNumberOfString (stripNumJS s) with
  | none => .finite 0
  | some q => doubleClamp q

/-- Comparator `sortNumberJS` under the double-aware model. -/
def sortNumberJSD (a b : String) : JSNum :=
  jsSubDouble (sortNumberJSNumD a) (sortNumberJSNumD b)

/-- Double value of one `sortNumber_nonJS` operand. -/
def sortNumberNonJSNumD (s : String) : JSNum :=
  match jsNumberOfString (stripNumNonJS s) with
  | none => .finite 0
  | some q => doubleClamp q

/-- Comparator `sortNumber_nonJS` under the double-aware model. -/
def sortNumberNonJSD (a b : String) : JSNum :=
  jsSubDouble (sortNumberNonJSNumD a) (sortNumberNonJSNumD b)

/-- Key of 310 `1` digits: its stripped numeric value exceeds 2 ^ 1024, so
its double conversion overflows to Infinity. -/
def bigNumKey : String :=
  ⟨List.replicate 310 '1'⟩

/-- Sanity check for the reduction-friendly difference: `ratSub` is the
subtraction of `ℚ`. -/
theorem ratSub_eq (a b : ℚ) : ratSub a b = a - b := by
  have ha : (a.den : ℚ) ≠ 0 := Nat.cast_ne_zero.mpr a.den_nz
  have hb : (b.den : ℚ) ≠ 0 := Nat.cast_ne_zero.mpr b.den_nz
  rw [ratSub, Rat.mkRat_eq_div]
  push_cast
  conv_rhs => rw [← Rat.num_div_den a, ← Rat.num_div_den b]
  rw [div_sub_div _ _ ha hb]
  ring_nf

/-- Unfolding lemma: the pure view of `alphaNumeric` is the final
comparison applied to the two classified values. -/
theorem alphaNumericCmp_eq (a b : String) :
    alphaNumericCmp a b = alphaCompare (tmpOf a) (tmpOf b) := rfl

/-- C1: on a table with at least one body row, for any column comparator
that induces a total, transitive not-above relation, the first sort request
produces the cached sequence in ascending comparator order with the row
order read off that cache, the second request produces the exact reverse of
the first result, and the third produces the exact reverse of the second,
which is the first result again. -/
theorem sort_toggle_involution (Row : Type) (cmp : String → String → ℚ)
    (getText : Row → String) (rows : List Row) (hne : rows ≠ [])
    (htot : ∀ a b : String, cmp a b ≤ 0 ∨ cmp b a ≤ 0)
    (htrans : ∀ a b c : String, cmp a b ≤ 0 → cmp b c ≤ 0 → cmp a c ≤ 0) :
    List.Sorted (pairLe cmp)
      ((jrSort cmp getText (initTable rows)).header.currentSortedTBody) ∧
    (jrSort cmp getText (initTable rows)).rows
      = ((jrSort cmp getText (initTable rows)).header.currentSortedTBody).map Prod.snd ∧
    (jrSort cmp getText (jrSort cmp getText (initTable rows))).rows
      = ((jrSort cmp getText (initTable rows)).rows).reverse ∧
    (jrSort cmp getText (jrSort cmp getText (jrSort cmp getText (initTable rows)))).rows
      = (jrSort cmp getText (initTable rows)).rows := by
  refine ⟨?_, rfl, rfl, rfl⟩
  haveI : IsTotal (String × Row) (pairLe cmp) := ⟨fun x y => htot x.1 y.1⟩
  haveI : IsTrans (String × Row) (pairLe cmp) :=
    ⟨fun x y z hxy hyz => htrans x.1 y.1 z.1 hxy hyz⟩
  have h : (jrSort cmp getText (initTable rows)).header.currentSortedTBody
      = List.insertionSort (pairLe cmp) (rows.map fun r => (getText r, r)) := rfl
  rw [h]
  exact List.sorted_insertionSort _ _

/-- Witness for C1 at a concrete one-row table with the constant-zero
comparator. -/
theorem sort_toggle_involution_witness :
    List.Sorted (pairLe (fun _ _ => (0 : ℚ)))
      ((jrSort (fun _ _ => (0 : ℚ)) (fun _ => "") (initTable [0])).header.currentSortedTBody) ∧
    (jrSort (fun _ _ => (0 : ℚ)) (fun _ => "") (initTable [0])).rows
      = ((jrSort (fun _ _ => (0 : ℚ)) (fun _ => "") (initTable [0])).header.currentSortedTBody).map
          Prod.snd ∧
    (jrSort (fun _ _ => (0 : ℚ)) (fun _ => "")
        (jrSort (fun _ _ => (0 : ℚ)) (fun _ => "") (initTable [0]))).rows
      = ((jrSort (fun _ _ => (0 : ℚ)) (fun _ => "") (initTable [0])).rows).reverse ∧
    (jrSort (fun _ _ => (0 : ℚ)) (fun _ => "")
        (jrSort (fun _ _ => (0 : ℚ)) (fun _ => "")
          (jrSort (fun _ _ => (0 : ℚ)) (fun _ => "") (initTable [0])))).rows
      = (jrSort (fun _ _ => (0 : ℚ)) (fun _ => "") (initTable [0])).rows :=
  sort_toggle_involution ℕ (fun _ _ => 0) (fun _ => "") [0]
    (by simp) (fun _ _ => Or.inl (le_refl 0)) (fun _ _ _ _ _ => le_refl 0)

/-- C2: `setup` iterates the sortable tables with a callback that binds
only the element, so `prepareTables` receives an undefined `tblNumber` for
every table; preparing two tables therefore stores both under the single
property key for undefined (span id `jrSortSpanundefined`), the second
setup overwriting the first, and the lookup a sort request performs finds
the last table's state, not the clicked table's. -/
theorem setup_shared_undefined_key :
    setupModel ([10, 20] : List ℕ)
      = [(none, { spanArrowId := "jrSortSpanundefined", tbody := 20 })] ∧
    lookupEntry (setupModel ([10, 20] : List ℕ)) none
      = some { spanArrowId := "jrSortSpanundefined", tbody := 20 } ∧
    ({ spanArrowId := "jrSortSpanundefined", tbody := 20 } : TableProp ℕ).tbody ≠ 10 := by
  decide

/-- C3 counterexample: the header class `sortDate_American`, which is
exactly a registry comparator name, is assigned the `sortDate` comparator
because `sortDate` is an earlier alternative of the `rxFn` alternation and
a prefix of `sortDate_American`. -/
theorem override_american_cex :
    assignedSortFn "sortDate_American" "x" = SortFnName.sortDate ∧
    SortFnName.sortDate ≠ SortFnName.sortDate_American := by
  decide

/-- C3 as amended: for the override tags `alphaNumeric`, `sortDate`,
`sortNumberJS` and `sortNumber_nonJS`, setup assigns exactly the named
comparator, bypassing inference from the first data row; the tag
`sortDate_American` instead assigns `sortDate`, the first matching
alternative of the registry alternation. -/
theorem override_assignment_amended : ∀ txt : String,
    assignedSortFn "alphaNumeric" txt = SortFnName.alphaNumeric ∧
    assignedSortFn "sortDate" txt = SortFnName.sortDate ∧
    assignedSortFn "sortNumberJS" txt = SortFnName.sortNumberJS ∧
    assignedSortFn "sortNumber_nonJS" txt = SortFnName.sortNumber_nonJS ∧
    assignedSortFn "sortDate_American" txt = SortFnName.sortDate := by
  intro txt
  have e : ∀ (n : SortFnName) (c : String),
      jsGetSortFn c = some n → assignedSortFn c txt = n := by
    intro n c h
    rw [assignedSortFn, h]
    rfl
  exact ⟨e _ _ (by decide), e _ _ (by decide), e _ _ (by decide),
    e _ _ (by decide), e _ _ (by decide)⟩

/-- Sanity check: the decimal constant of `overflowBound` is 2 ^ 1024. -/
theorem overflowBound_eq : overflowBound = (2 : ℚ) ^ 1024 := by
  rw [overflowBound, Rat.mkRat_eq_div]
  norm_num

/-- Helper: the rebuilt-date comparison only ever returns -1, 0 or 1. -/
theorem strCmpJS_mem (x y : String) :
    strCmpJS x y = -1 ∨ strCmpJS x y = 0 ∨ strCmpJS x y = 1 := by
  unfold strCmpJS
  split_ifs <;> simp

/-- Helper: the double subtraction is NaN exactly on two like-signed
infinities, when neither operand is itself NaN. -/
theorem jsSubDouble_nan_iff (x y : JSNum) (hx : x ≠ JSNum.nan) (hy : y ≠ JSNum.nan) :
    jsSubDouble x y = JSNum.nan ↔
      (x = JSNum.inf ∧ y = JSNum.inf) ∨ (x = JSNum.negInf ∧ y = JSNum.negInf) := by
  cases x <;> cases y <;> simp_all [jsSubDouble]

/-- Helper: saturation never produces NaN. -/
theorem doubleClamp_ne_nan (q : ℚ) : doubleClamp q ≠ JSNum.nan := by
  unfold doubleClamp
  split_ifs <;> simp

/-- Helper: a `sortNumberJS` operand is never NaN (the guard maps NaN
coercions to 0, and an overflowed coercion is an infinity). -/
theorem sortNumberJSNumD_ne_nan (s : String) : sortNumberJSNumD s ≠ JSNum.nan := by
  unfold sortNumberJSNumD
  cases hq : jsNumberOfString (stripNumJS s) with
  | none => simp
  | some q => simp [doubleClamp_ne_nan q]

/-- Helper: a `sortNumber_nonJS` operand is never NaN. -/
theorem sortNumberNonJSNumD_ne_nan (s : String) : sortNumberNonJSNumD s ≠ JSNum.nan := by
  unfold sortNumberNonJSNumD
  cases hq : jsNumberOfString (stripNumNonJS s) with
  | none => simp
  | some q => simp [doubleClamp_ne_nan q]

/-- Helper: `parseFloat` never yields NaN as a parsed value (an
unparseable key is reported as `none` instead). -/
theorem parseFloatD_some_ne_nan (s : String) (x : JSNum) (h : parseFloatD s = some x) :
    x ≠ JSNum.nan := by
  unfold parseFloatD at h
  split_ifs at h
  · injection h with h1
    subst h1
    simp
  · injection h with h1
    subst h1
    simp
  · obtain ⟨p, hp, hpx⟩ := Option.map_eq_some'.1 h
    subst hpx
    exact doubleClamp_ne_nan p.1

/-- Helper: a numerically classified `alphaNumeric` key is never NaN. -/
theorem tmpOfD_num_ne_nan (s : String) (x : JSNum) (h : tmpOfD s = JSValD.num x) :
    x ≠ JSNum.nan := by
  unfold tmpOfD at h
  split_ifs at h
  · injection h with h1
    subst h1
    simp
  · cases hp : parseFloatD s with
    | none =>
        rw [hp] at h
        exact absurd h (by simp)
    | some xx =>
        rw [hp] at h
        injection h with h1
        subst h1
        exact parseFloatD_some_ne_nan s _ hp

set_option maxRecDepth 40000 in
/-- C4 counterexample: the claim as frozen fails under the double format
the program computes with: two copies of a 310-digit key coerce to
Infinity under `sortNumberJS` (and under the `parseFloat` branch of
`alphaNumeric`), and Infinity minus Infinity is NaN, which is neither
negative, zero nor positive. -/
theorem comparator_nan_cex :
    sortNumberJSNumD bigNumKey = JSNum.inf ∧
    sortNumberJSD bigNumKey bigNumKey = JSNum.nan ∧
    alphaNumericD bigNumKey bigNumKey = JSNum.nan ∧
    JSNum.nan ≠ JSNum.finite (-1) ∧ JSNum.nan ≠ JSNum.finite 0 ∧ JSNum.nan ≠ JSNum.finite 1 := by
  decide

/-- C4 as amended: every registry comparator always returns a value (no
failure path); the two date comparators always return -1, 0 or 1; each of
the three subtraction-based comparators returns NaN exactly when its two
operands coerce to the same infinity of the double format, and otherwise a
number with a defined sign; off overflow, `sortNumberJS` returns exactly
the difference of the two coerced values. -/
theorem comparators_total_amended :
    (∀ (s : SortClosure) (a b : String),
      ((sortDateS s a b).1 = -1 ∨ (sortDateS s a b).1 = 0 ∨ (sortDateS s a b).1 = 1) ∧
      ((sortDate_AmericanS s a b).1 = -1 ∨ (sortDate_AmericanS s a b).1 = 0 ∨
        (sortDate_AmericanS s a b).1 = 1)) ∧
    (∀ a b : String, sortNumberJSD a b = JSNum.nan ↔
      (sortNumberJSNumD a = JSNum.inf ∧ sortNumberJSNumD b = JSNum.inf) ∨
      (sortNumberJSNumD a = JSNum.negInf ∧ sortNumberJSNumD b = JSNum.negInf)) ∧
    (∀ a b : String, sortNumberNonJSD a b = JSNum.nan ↔
      (sortNumberNonJSNumD a = JSNum.inf ∧ sortNumberNonJSNumD b = JSNum.inf) ∨
      (sortNumberNonJSNumD a = JSNum.negInf ∧ sortNumberNonJSNumD b = JSNum.negInf)) ∧
    (∀ a b : String, alphaNumericD a b = JSNum.nan ↔
      (∃ x y : JSNum, tmpOfD a = JSValD.num x ∧ tmpOfD b = JSValD.num y ∧
        ((x = JSNum.inf ∧ y = JSNum.inf) ∨ (x = JSNum.negInf ∧ y = JSNum.negInf)))) ∧
    (∀ (a b : String) (qa qb : ℚ),
      sortNumberJSNumD a = JSNum.finite qa → sortNumberJSNumD b = JSNum.finite qb →
      sortNumberJSD a b = JSNum.finite (ratSub qa qb)) := by
  refine ⟨?_, ?_, ?_, ?_, ?_⟩
  · intro s a b
    exact ⟨strCmpJS_mem _ _, strCmpJS_mem _ _⟩
  · intro a b
    exact jsSubDouble_nan_iff _ _ (sortNumberJSNumD_ne_nan a) (sortNumberJSNumD_ne_nan b)
  · intro a b
    exact jsSubDouble_nan_iff _ _ (sortNumberNonJSNumD_ne_nan a) (sortNumberNonJSNumD_ne_nan b)
  · intro a b
    unfold alphaNumericD
    cases ha : tmpOfD a with
    | str t =>
        cases hb : tmpOfD b with
        | str u => simp [alphaCompareD]
        | num y => simp [alphaCompareD]
    | num x =>
        cases hb : tmpOfD b with
        | str u => simp [alphaCompareD]
        | num y =>
            simp only [alphaCompareD]
            rw [jsSubDouble_nan_iff x y (tmpOfD_num_ne_nan a x ha) (tmpOfD_num_ne_nan b y hb)]
            constructor
            · intro h
              exact ⟨x, y, rfl, rfl, h⟩
            · rintro ⟨u, v, hu, hv, h⟩
              obtain rfl : x = u := by injection hu
              obtain rfl : y = v := by injection hv
              exact h
  · intro a b qa qb ha hb
    unfold sortNumberJSD
    rw [ha, hb]
    rfl

/-- Witness for C4 at two concrete in-range keys. -/
theorem comparators_total_amended_witness :
    sortNumberJSD "5" "2" = JSNum.finite (ratSub 5 2) :=
  comparators_total_amended.2.2.2.2 "5" "2" 5 2 (by decide) (by decide)

/-- C5: under `sortNumberJS` the keys strip to `1234.50`, `99.90` and the
empty string (which coerces to 0), the pairwise comparisons are negative in
the claimed direction, and the first sort of the three-row example column
caches and emits the ascending order N/A, $99.90, $1,234.50. -/
theorem sortNumberJS_example_order :
    stripNumJS "$1,234.50" = "1234.50" ∧
    stripNumJS "$99.90" = "99.90" ∧
    stripNumJS "N/A" = "" ∧
    jsNumberOfString (stripNumJS "$1,234.50") = some (mkRat 2469 2) ∧
    (jsNumberOfString (stripNumJS "N/A")).getD 0 = 0 ∧
    sortNumberJSCmp "N/A" "$99.90" < 0 ∧
    sortNumberJSCmp "$99.90" "$1,234.50" < 0 ∧
    (jrSort sortNumberJSCmp c5Texts (initTable [0, 1, 2])).header.currentSortedTBody
      = [("N/A", 2), ("$99.90", 1), ("$1,234.50", 0)] ∧
    (jrSort sortNumberJSCmp c5Texts (initTable [0, 1, 2])).rows = [2, 1, 0] := by
  decide

/-- C6 counterexample: the sample `25.12.2023` matches the date pattern
with first group 25 > 12, so the claim requires the day-first comparator,
but the classifier tests the numeric pattern first and that pattern matches
a dot-separated date, so `sortNumberJS` is selected. -/
theorem date_pattern_numeric_shadow_cex :
    dateGroups "25.12.2023" = some (25, 12) ∧ 12 < 25 ∧
    guessDataType "25.12.2023" = SortFnName.sortNumberJS ∧
    SortFnName.sortNumberJS ≠ SortFnName.sortDate := by
  decide

/-- C6 as amended: for every sample that matches the date pattern and does
not match the numeric pattern (which is tested first and captures, for
example, dot-separated dates), the classifier picks day-first when the
first group exceeds 12, month-first when the first group is at most 12 and
the second exceeds 12, and day-first when both are at most 12. -/
theorem date_disambiguation_amended :
    ∀ (txt : String) (g : Nat × Nat),
    matchesNumericPattern txt = false →
    dateGroups txt = some g →
    guessDataType txt =
      (if 12 < g.1 then SortFnName.sortDate
       else if 12 < g.2 then SortFnName.sortDate_American
       else SortFnName.sortDate) := by
  intro txt g hnum hdate
  have hlen : txt.length > 0 := by
    cases htxt : txt.data with
    | nil =>
        unfold dateGroups at hdate
        have h1 : dateGroupsL ([] : List Char) = none := rfl
        rw [htxt, h1] at hdate
        exact Option.noConfusion hdate
    | cons c cs =>
        have hl : txt.length = txt.data.length := rfl
        rw [hl, htxt]
        simp
  simp [guessDataType, hlen, hnum, hdate]

/-- Witness for C6 at the three samples named by the claim. -/
theorem date_disambiguation_witness :
    guessDataType "25/12/2023" = SortFnName.sortDate ∧
    guessDataType "02/25/2023" = SortFnName.sortDate_American ∧
    guessDataType "03/04/2023" = SortFnName.sortDate := by
  refine ⟨?_, ?_, ?_⟩
  · have h := date_disambiguation_amended "25/12/2023" (25, 12) (by decide) (by decide)
    simpa using h
  · have h := date_disambiguation_amended "02/25/2023" (2, 25) (by decide) (by decide)
    simpa using h
  · have h := date_disambiguation_amended "03/04/2023" (3, 4) (by decide) (by decide)
    simpa using h

/-- C7: `alphaNumeric` classifies the empty key as the number zero and any
key matching the leading-zero pattern as text; two numeric keys compare by
numeric difference; a numeric key precedes any textual key; and `7`
(numeric) is ordered strictly before `007` (textual), a non-equal result. -/
theorem alphaNumeric_precedence :
    tmpOf "" = JSVal.num 0 ∧
    (∀ s : String, zeroPatternMatches s = true → tmpOf s = JSVal.str s) ∧
    (∀ (a b : String) (qa qb : ℚ), tmpOf a = JSVal.num qa → tmpOf b = JSVal.num qb →
      alphaNumericCmp a b = qa - qb) ∧
    (∀ (a b : String) (qa : ℚ) (sb : String), tmpOf a = JSVal.num qa → tmpOf b = JSVal.str sb →
      alphaNumericCmp a b < 0) ∧
    alphaNumericCmp "7" "007" < 0 ∧ 0 < alphaNumericCmp "007" "7" := by
  refine ⟨by decide, ?_, ?_, ?_, by decide, by decide⟩
  · intro s h
    simp [tmpOf, h]
  · intro a b qa qb ha hb
    rw [alphaNumericCmp_eq, ha, hb]
    exact ratSub_eq qa qb
  · intro a b qa sb ha hb
    rw [alphaNumericCmp_eq, ha, hb]
    norm_num [alphaCompare]

/-- Witness for C7 at the keys `007` (textual by the pattern) and the
numeric/textual pair 5 and abc. -/
theorem alphaNumeric_precedence_witness :
    tmpOf "007" = JSVal.str "007" ∧ alphaNumericCmp "5" "abc" < 0 :=
  ⟨alphaNumeric_precedence.2.1 "007" (by decide),
   alphaNumeric_precedence.2.2.2.1 "5" "abc" 5 "abc" (by decide) (by decide)⟩

/-- C8: a sort request on an already sorted column leaves the cached
sequence unchanged in contents and order, returns a result that does not
depend on the comparator or on the text extraction (neither is invoked),
and emits a row sequence that is a permutation of the cached rows, so no
row is dropped or duplicated. -/
theorem toggle_cache_invariant (Row : Type) (cmp cmpAlt : String → String → ℚ)
    (getText getTextAlt : Row → String) (t : TableState Row)
    (h : t.header.isSorted = true) :
    (jrSort cmp getText t).header.currentSortedTBody = t.header.currentSortedTBody ∧
    jrSort cmp getText t = jrSort cmpAlt getTextAlt t ∧
    (jrSort cmp getText t).rows.Perm (t.header.currentSortedTBody.map Prod.snd) := by
  obtain ⟨rows, dir, srt, cache⟩ := t
  change srt = true at h
  subst h
  cases dir with
  | up => exact ⟨rfl, rfl, List.reverse_perm _⟩
  | down => exact ⟨rfl, rfl, List.Perm.refl _⟩

/-- Witness for C8 at a concrete sorted two-row column state, with two
different comparators and two different text extractors. -/
theorem toggle_cache_invariant_witness :
    (jrSort (fun _ _ => (0 : ℚ)) (fun _ => "x") toggleFixture).header.currentSortedTBody
      = toggleFixture.header.currentSortedTBody ∧
    jrSort (fun _ _ => (0 : ℚ)) (fun _ => "x") toggleFixture
      = jrSort (fun _ _ => (1 : ℚ)) (fun _ => "y") toggleFixture ∧
    (jrSort (fun _ _ => (0 : ℚ)) (fun _ => "x") toggleFixture).rows.Perm
      (toggleFixture.header.currentSortedTBody.map Prod.snd) :=
  toggle_cache_invariant ℕ (fun _ _ => 0) (fun _ _ => 1) (fun _ => "x") (fun _ => "y")
    toggleFixture rfl

/-- C9 counterexample: the key consisting of a zero digit followed by a
line feed starts with `0`, yet the pattern `^0+.*$` does not match it (the
regexp dot cannot cross a line terminator), `parseFloat` reads it as the
number 0, the numeric key `5` orders strictly after it rather than before,
and it compares equal to the empty key. -/
theorem leading_zero_newline_cex :
    "0\n".data.head? = some '0' ∧
    zeroPatternMatches "0\n" = false ∧
    tmpOf "0\n" = JSVal.num 0 ∧
    0 < alphaNumericCmp "5" "0\n" ∧
    alphaNumericCmp "0\n" "" = 0 := by
  decide

/-- C9 as amended: every key whose first character is `0` and which
contains no line terminator is classified textual by `alphaNumeric`, and
any key classified numeric orders strictly before it; in particular `5`
precedes `0.5` although 0.5 is numerically smaller, and `0` does not
compare equal to the empty key. -/
theorem leading_zero_textual_amended :
    (∀ (s t : String) (qt : ℚ),
      s.data.head? = some '0' →
      s.data.all (fun c => !isLineTerminator c) = true →
      tmpOf s = JSVal.str s ∧
        (tmpOf t = JSVal.num qt → alphaNumericCmp t s < 0)) ∧
    alphaNumericCmp "5" "0.5" < 0 ∧
    ¬ alphaNumericCmp "0" "" = 0 := by
  refine ⟨?_, by decide, by decide⟩
  intro s t qt hh ha
  have hz : zeroPatternMatches s = true := by
    show zeroPatternMatchesL s.data = true
    cases hs : s.data with
    | nil =>
        rw [hs] at hh
        exact absurd hh (by simp)
    | cons c cs =>
        have hc : c = '0' := by rw [hs] at hh; simpa using hh
        have ha2 : ((c :: cs).all fun ch => !isLineTerminator ch) = true := hs ▸ ha
        simp only [zeroPatternMatchesL, Bool.and_eq_true, decide_eq_true_eq]
        exact ⟨hc, ha2⟩
  refine ⟨by simp [tmpOf, hz], ?_⟩
  intro ht
  rw [alphaNumericCmp_eq, ht]
  have hstr : tmpOf s = JSVal.str s := by simp [tmpOf, hz]
  rw [hstr]
  norm_num [alphaCompare]

/-- Witness for C9 at the leading-zero key `00` and the numeric key `7`. -/
theorem leading_zero_textual_witness :
    tmpOf "00" = JSVal.str "00" ∧ alphaNumericCmp "7" "00" < 0 := by
  have h := leading_zero_textual_amended.1 "00" "7" 7 (by decide) (by decide)
  exact ⟨h.1, h.2 (by decide)⟩

/-- C10: although the comparators write the shared closure variables, the
value each call returns is a function of the two keys alone: running any
registry comparator from two arbitrary closure states (for example, the
states left behind by different interleaved calls) yields equal results. -/
theorem comparators_state_independent :
    ∀ (s sAlt : SortClosure) (a b : String),
    (alphaNumericS s a b).1 = (alphaNumericS sAlt a b).1 ∧
    (sortDateS s a b).1 = (sortDateS sAlt a b).1 ∧
    (sortDate_AmericanS s a b).1 = (sortDate_AmericanS sAlt a b).1 ∧
    (sortNumberJSS s a b).1 = (sortNumberJSS sAlt a b).1 ∧
    (sortNumber_nonJSS s a b).1 = (sortNumber_nonJSS sAlt a b).1 :=
  fun _ _ _ _ => ⟨rfl, rfl, rfl, rfl, rfl⟩

end JrSortTable
